import Mathlib

/-!
Verification of the pyuavcan presentation-layer subscriber
(`pyuavcan/presentation/_session/_subscriber.py`).

Shallow embedding of the subscription layer: the per-consumer `_Listener`
record, the shared `SubscriberImpl` (the "SharedReceiver" of the design
document) with its background receive loop and listener registry, and the
public `Subscriber` handle with its timeout-based receive API, close, and
the async-iteration wrapper.

Messages and transfers are abstracted as natural-number identifiers: the
code under verification never inspects their contents, it only moves the
pairs around.  `asyncio.Queue` is modelled as a `List` with a capacity
field (`maxsize = 0` meaning unbounded, exactly as in the Queue API).
Python exceptions are modelled by the inductive `Exc`; a raised exception
carries an optional explicit cause (`raise X from Y`).  `asyncio` tasks
are modelled by cancellation-request flags, and real-time suspension by a
`blocked` flag on the outcome of `receive_for`.
-/

namespace PyUAVCAN

/-- A decoded message paired with the transfer that delivered it,
abstracted to identifiers (the subscriber code never looks inside). -/
abbrev Item := Nat × Nat

/-- The exceptions that appear in `_subscriber.py`:
`presentationSessionClosed` is `PresentationSessionClosedError`;
`resourceClosed` is `pyuavcan.transport.ResourceClosedError`;
`runtimeFailedClosed` is the `RuntimeError("The subscriber has failed and
been closed")` used as the explicit cause in `_raise_if_closed_or_failed`;
`transportFault n` is an arbitrary fault surfaced by the transport session;
`valueError` is `ValueError`; `otherError n` is any other exception. -/
inductive Exc where
  | presentationSessionClosed : Exc
  | resourceClosed : Exc
  | runtimeFailedClosed : Exc
  | transportFault : Nat → Exc
  | valueError : Exc
  | otherError : Nat → Exc
  deriving DecidableEq, Repr

/-- Modelled from the spec: the class hierarchy of
`PresentationSessionClosedError` is declared in `_error.py`, which is not
among the sources under verification.  The error taxonomy of the design
document ("(1) ClosedError — handle or receiver no longer usable", and
"the sequence ends ... precisely when the underlying receive fails with a
closed error") places `PresentationSessionClosedError` below the
transport-level `ResourceClosedError` that `__anext__` catches. -/
def Exc.isResourceClosedError : Exc → Bool
  | .presentationSessionClosed => true
  | .resourceClosed => true
  | _ => false

/-- Per-subscriber record `_Listener`.  The queue is an
`asyncio.Queue(maxsize := capacity)`; `capacity = 0` means unbounded,
exactly as in the Queue API.  `id` stands for Python object identity:
each listener owns a distinct queue object, so dataclass equality on
`_Listener` (whose `queue` field compares by object identity, since
`asyncio.Queue` defines no `__eq__`) coincides with identity. -/
structure Listener where
  id : Nat
  capacity : Nat
  queue : List Item
  push_count : Nat
  overrun_count : Nat
  exception : Option Exc
  deriving DecidableEq, Repr

/-- Fullness test `asyncio.Queue.full()`: a queue is full iff
`maxsize > 0` and `qsize >= maxsize` (a maxsize of zero means unbounded). -/
def Listener.queueFull (l : Listener) : Bool :=
  0 < l.capacity ∧ l.capacity ≤ l.queue.length

/-- Method `_Listener.push`: `put_nowait` the pair and increment
`push_count`; on `asyncio.QueueFull`, increment `overrun_count` instead
(the new item is dropped, the queue is left unchanged). -/
def Listener.push (l : Listener) (it : Item) : Listener :=
  if l.queueFull then
    { l with overrun_count := l.overrun_count + 1 }
  else
    { l with queue := l.queue ++ [it], push_count := l.push_count + 1 }

/-- A freshly constructed listener, as built in `Subscriber.__init__`:
empty queue, zero counters, no terminal failure. -/
def Listener.fresh (id capacity : Nat) : Listener :=
  { id := id, capacity := capacity, queue := [], push_count := 0,
    overrun_count := 0, exception := none }

/-- A sequence of `push` calls with no intervening drain. -/
def Listener.pushAll (l : Listener) (its : List Item) : Listener :=
  its.foldl Listener.push l

/-- The operations the code ever performs on a live `_Listener`: the
receive loop pushes (`SubscriberImpl._task_function`), the owning
subscriber pops one item from the queue (`Subscriber.receive_for` via
`get` / `get_nowait`), and the loop exit path stores a terminal failure —
always an actual exception object, never `None`, because line 306
substitutes `PresentationSessionClosedError` when no fault occurred. -/
inductive ListenerOp where
  | push (it : Item)
  | drain
  | setFailure (e : Exc)
  deriving DecidableEq, Repr

def Listener.applyOp (l : Listener) : ListenerOp → Listener
  | .push it => l.push it
  | .drain => { l with queue := l.queue.tail }
  | .setFailure e => { l with exception := some e }

def Listener.applyOps (l : Listener) (ops : List ListenerOp) : Listener :=
  ops.foldl Listener.applyOp l

/-- State of `SubscriberImpl` (the shared receiver).  `finalizerArgs`
records every invocation of the finalizer callback together with the list
of transport sessions passed to it, so "invoked exactly once with the
transport session" is expressible; `taskCancelRequested` records that
`self._task.cancel()` was issued. -/
structure ImplState where
  listeners : List Listener
  closed : Bool
  deserialization_failure_count : Nat
  transportSession : Nat
  finalizerArgs : List (List Nat)
  taskCancelRequested : Bool
  deriving DecidableEq, Repr

/-- Constructor `SubscriberImpl.__init__`: no listeners, not closed,
zero counters, finalizer not yet invoked. -/
def ImplState.start (session : Nat) : ImplState :=
  { listeners := [], closed := false, deserialization_failure_count := 0,
    transportSession := session, finalizerArgs := [], taskCancelRequested := false }

/-- One iteration of the while-loop body of
`SubscriberImpl._task_function`.  The input is the transfer returned by
`transport_session.receive_until` (`none` on poll timeout), paired with
the result of `pyuavcan.dsdl.deserialize` on its payload (`none` means
malformed).  A timed-out poll changes nothing; a malformed payload bumps
the shared deserialization-failure counter; a decoded message is pushed
to every currently registered listener. -/
def ImplState.loopIteration (st : ImplState) (input : Option (Nat × Option Nat)) : ImplState :=
  match input with
  | none => st
  | some (_, none) =>
      { st with deserialization_failure_count := st.deserialization_failure_count + 1 }
  | some (tid, some msg) =>
      { st with listeners := st.listeners.map (fun rx => rx.push (msg, tid)) }

/-- How the while loop of `_task_function` ended: the closed flag was
observed by the loop condition, the task was cancelled
(`asyncio.CancelledError`), or the body raised some other exception. -/
inductive LoopExitTrigger where
  | closedFlag : LoopExitTrigger
  | cancelled : LoopExitTrigger
  | fault (e : Exc) : LoopExitTrigger
  deriving DecidableEq, Repr

/-- The exception recorded by the except-clauses around the while loop:
only a genuine fault is recorded; cancellation and a normal exit leave it
`None`. -/
def LoopExitTrigger.faultValue : LoopExitTrigger → Option Exc
  | .fault e => some e
  | _ => none

/-- The terminal value stored into every listener by lines 298-308 of
`_task_function`: the loop fault if any; overridden by the fault of the
finalizer itself if the finalizer raises; and if neither faulted, the
generic `PresentationSessionClosedError`. -/
def exitException (trigger : LoopExitTrigger) (finalizerFault : Option Exc) : Exc :=
  match finalizerFault with
  | some e => e
  | none => trigger.faultValue.getD .presentationSessionClosed

/-- The exit path of `SubscriberImpl._task_function` (lines 298-308),
executed exactly once when the while loop ends for any reason: set the
closed flag, invoke the finalizer with the transport session (recorded in
`finalizerArgs`; a fault from the finalizer is caught and recorded), then
store the terminal exception into every currently registered listener. -/
def ImplState.taskExit (st : ImplState) (trigger : LoopExitTrigger)
    (finalizerFault : Option Exc) : ImplState :=
  let exc := exitException trigger finalizerFault
  { st with closed := true,
            finalizerArgs := st.finalizerArgs ++ [[st.transportSession]],
            listeners := st.listeners.map (fun rx => { rx with exception := some exc }) }

/-- One complete execution of `SubscriberImpl._task_function`: the loop
iterations it performed, then the exit path. -/
def ImplState.taskRun (st : ImplState) (inputs : List (Option (Nat × Option Nat)))
    (trigger : LoopExitTrigger) (finalizerFault : Option Exc) : ImplState :=
  (inputs.foldl ImplState.loopIteration st).taskExit trigger finalizerFault

/-- Method `SubscriberImpl.close`: set the closed flag and cancel the
background task (the cancel call is wrapped in try/except, so the method
never raises). -/
def ImplState.close (st : ImplState) : ImplState :=
  { st with closed := true, taskCancelRequested := true }

/-- Method `SubscriberImpl.add_listener`: raise
`PresentationSessionClosedError` if already closed, otherwise append the
listener to the registry. -/
def ImplState.add_listener (st : ImplState) (rx : Listener) : Except Exc ImplState :=
  if st.closed then .error .presentationSessionClosed
  else .ok { st with listeners := st.listeners ++ [rx] }

/-- The bare `list.remove(rx)` call: remove the first occurrence, raise
`ValueError` if absent.  Listener equality is identity (see `Listener`),
modelled by the `id` field. -/
def listRemove (ls : List Listener) (rxId : Nat) : Except Exc (List Listener) :=
  match ls with
  | [] => .error .valueError
  | l :: rest =>
      if l.id = rxId then .ok rest
      else
        match listRemove rest rxId with
        | .ok rest2 => .ok (l :: rest2)
        | .error e => .error e

/-- The listener list after the try/except around `list.remove` in
`SubscriberImpl.remove_listener`: `ValueError` on absence is caught and
the list is left as it was (the inconsistency is only logged). -/
def ImplState.removedList (st : ImplState) (rxId : Nat) : List Listener :=
  match listRemove st.listeners rxId with
  | .ok ls => ls
  | .error _ => st.listeners

/-- Method `SubscriberImpl.remove_listener`: attempt `list.remove`,
catching `ValueError` (absence is only logged); then, if the listener set
is now empty and the receiver is not yet closed, set the closed flag and
cancel the background task immediately (the cancel call is wrapped in
try/except).  The function is total: the method never raises. -/
def ImplState.remove_listener (st : ImplState) (rxId : Nat) : ImplState :=
  if (st.removedList rxId).length = 0 ∧ st.closed = false then
    { st with listeners := st.removedList rxId, closed := true, taskCancelRequested := true }
  else
    { st with listeners := st.removedList rxId }

/-- Look up a listener in the registry by identity (the `self._rx`
reference held by a `Subscriber`). -/
def ImplState.getListener (st : ImplState) (rxId : Nat) : Option Listener :=
  st.listeners.find? (fun l => l.id = rxId)

/-- Write back a mutation of one listener (Python mutates the shared
object in place; the embedding replaces the entry with the same id). -/
def ImplState.setListener (st : ImplState) (rx : Listener) : ImplState :=
  { st with listeners := st.listeners.map (fun l => if l.id = rx.id then rx else l) }

/-- State of the public `Subscriber` handle: its closed flag, the
identity of its own listener, and whether a background handler task from
`receive_in_background` is live (`_maybe_task`). -/
structure SubscriberState where
  closed : Bool
  rxId : Nat
  hasTask : Bool
  deriving DecidableEq, Repr

/-- A `Subscriber` together with the shared implementation it points to. -/
structure System where
  sub : SubscriberState
  impl : ImplState
  deriving DecidableEq, Repr

/-- The queue-capacity validation in `Subscriber.__init__` (lines 68-73):
`None` becomes 0, the value the Queue API defines as unlimited; an
explicit value below 1 raises `ValueError`; any other value is used as
the queue bound. -/
def validateQueueCapacity : Option Int → Except Exc Nat
  | none => .ok 0
  | some n => if n < 1 then .error .valueError else .ok n.toNat

/-- Constructor `Subscriber.__init__`: validate the capacity, create a
fresh listener with that queue bound, and register it with the shared
implementation via `add_listener`. -/
def subscriberInit (impl : ImplState) (rxId : Nat) (queue_capacity : Option Int) :
    Except Exc System :=
  match validateQueueCapacity queue_capacity with
  | .error e => .error e
  | .ok cap =>
      match impl.add_listener (Listener.fresh rxId cap) with
      | .error e => .error e
      | .ok impl2 =>
          .ok { sub := { closed := false, rxId := rxId, hasTask := false }, impl := impl2 }

/-- The observable outcome of one `receive_for` call: either an exception
was raised (with its explicit `raise ... from ...` cause, if any) or a
value was returned (`none` standing for Python `None`). -/
inductive RecvOutcome where
  | raised (e : Exc) (cause : Option Exc)
  | returned (v : Option Item)
  deriving DecidableEq, Repr

/-- Outcome of `receive_for` together with whether the call suspended the
caller at an await point. -/
structure RecvResult where
  outcome : RecvOutcome
  blocked : Bool
  deriving DecidableEq, Repr

/-- Method `Subscriber._raise_if_closed_or_failed`: on a closed handle,
raise `PresentationSessionClosedError` (no explicit cause); if the
listener carries a terminal failure, mark the handle closed and raise
that failure with the `RuntimeError` wrapper as its explicit cause. -/
def raiseIfClosedOrFailed (s : System) : System × Option (Exc × Option Exc) :=
  if s.sub.closed then (s, some (.presentationSessionClosed, none))
  else
    match s.impl.getListener s.sub.rxId with
    | some rx =>
        match rx.exception with
        | some e =>
            ({ s with sub := { s.sub with closed := true } },
             some (e, some .runtimeFailedClosed))
        | none => (s, none)
    | none => (s, none)

/-- Method `Subscriber.receive_for` (lines 145-172).  After the
closed/failed check: a positive timeout awaits the queue under
`asyncio.wait_for` — if the queue already holds an item it is returned at
once, otherwise the call suspends and `arrival` tells whether the loop
pushes an item before the timeout elapses (`asyncio.TimeoutError` is
caught and turned into `None`); a non-positive timeout does a single
non-blocking `get_nowait`, catching `asyncio.QueueEmpty` into `None`. -/
def receive_for (s : System) (timeout : Int) (arrival : Option Item) : System × RecvResult :=
  match raiseIfClosedOrFailed s with
  | (s1, some (e, c)) => (s1, { outcome := .raised e c, blocked := false })
  | (s1, none) =>
      match s1.impl.getListener s1.sub.rxId with
      | none => (s1, { outcome := .returned none, blocked := false })
      | some rx =>
          match rx.queue with
          | it :: rest =>
              ({ s1 with impl := s1.impl.setListener { rx with queue := rest } },
               { outcome := .returned (some it), blocked := false })
          | [] =>
              if 0 < timeout then
                match arrival with
                | some it => (s1, { outcome := .returned (some it), blocked := true })
                | none => (s1, { outcome := .returned none, blocked := true })
              else
                (s1, { outcome := .returned none, blocked := false })

/-- Method `Subscriber.close` (lines 211-220): if not yet closed, set the
closed flag, detach the listener via `remove_listener`, and cancel any
background handler task without waiting for it (the cancel call is
wrapped in try/except and `_maybe_task` is cleared).  A second call finds
the flag set and does nothing.  The function is total: the method never
raises. -/
def subscriberClose (s : System) : System :=
  if s.sub.closed then s
  else
    { sub := { s.sub with closed := true, hasTask := false },
      impl := s.impl.remove_listener s.sub.rxId }

/-- The outcome of the underlying `receive()` call as seen by
`__anext__`: a message/transfer pair, or a raised exception. -/
inductive ReceiveOutcome where
  | item (it : Item)
  | raised (e : Exc) (cause : Option Exc)
  deriving DecidableEq, Repr

/-- What one step of the async-iteration protocol produces. -/
inductive AnextOutcome where
  | yielded (it : Item)
  | stopAsyncIteration
  | raised (e : Exc) (cause : Option Exc)
  deriving DecidableEq, Repr

/-- Method `Subscriber.__anext__` (lines 182-189): return the result of
`receive()`, converting `pyuavcan.transport.ResourceClosedError` (and its
subclasses) into `StopAsyncIteration`; every other exception propagates
unchanged. -/
def anextStep : ReceiveOutcome → AnextOutcome
  | .item it => .yielded it
  | .raised e c => if e.isResourceClosedError then .stopAsyncIteration else .raised e c

/-- Concrete shared receiver for settling C1: one registered listener,
transport session 5, not yet closed. -/
def c1State : ImplState :=
  { ImplState.start 5 with listeners := [Listener.fresh 0 0] }

/-- Concrete system for settling C4: an open subscriber whose listener
carries the terminal transport fault number 7. -/
def c4System : System :=
  { sub := { closed := false, rxId := 0, hasTask := false },
    impl := { ImplState.start 7 with
              listeners := [{ Listener.fresh 0 0 with exception := some (.transportFault 7) }] } }

/-- Concrete system for witnessing C3: an open subscriber over a healthy
listener with an empty queue. -/
def c3System : System :=
  { sub := { closed := false, rxId := 0, hasTask := false },
    impl := { ImplState.start 3 with listeners := [Listener.fresh 0 0] } }

/-- Concrete system for witnessing C8: an open subscriber with a live
background handler task. -/
def c8System : System :=
  { sub := { closed := false, rxId := 0, hasTask := true },
    impl := { ImplState.start 8 with listeners := [Listener.fresh 0 0] } }

/-! Helper lemmas about `Listener.push`. -/

theorem Listener.push_full (l : Listener) (it : Item) (h : l.queueFull = true) :
    l.push it = { l with overrun_count := l.overrun_count + 1 } := by
  simp [Listener.push, h]

theorem Listener.push_not_full (l : Listener) (it : Item) (h : l.queueFull = false) :
    l.push it = { l with queue := l.queue ++ [it], push_count := l.push_count + 1 } := by
  simp [Listener.push, h]

/-- Fields of a listener untouched by `push`. -/
theorem Listener.push_preserves (l : Listener) (it : Item) :
    (l.push it).id = l.id ∧ (l.push it).capacity = l.capacity ∧
    (l.push it).exception = l.exception := by
  unfold Listener.push; split <;> simp

/-- The general shape of `pushAll` on a bounded queue with free room
`capacity - length`: the first that many items are enqueued, the rest are
dropped and counted as overruns. -/
theorem Listener.pushAll_bounded (its : List Item) :
    ∀ (l : Listener), 0 < l.capacity → l.queue.length ≤ l.capacity →
    (l.pushAll its).queue = l.queue ++ its.take (l.capacity - l.queue.length) ∧
    (l.pushAll its).push_count = l.push_count + min its.length (l.capacity - l.queue.length) ∧
    (l.pushAll its).overrun_count = l.overrun_count + (its.length - (l.capacity - l.queue.length)) ∧
    (l.pushAll its).capacity = l.capacity := by
  induction its with
  | nil => intro l _ _; simp [Listener.pushAll]
  | cons it rest ih =>
    intro l hc hle
    by_cases hfull : l.queue.length = l.capacity
    · have hf : l.queueFull = true := by
        simp [Listener.queueFull, hc, hfull]
      have hstep : l.push it = { l with overrun_count := l.overrun_count + 1 } :=
        Listener.push_full l it hf
      have hrw : l.pushAll (it :: rest) =
          Listener.pushAll { l with overrun_count := l.overrun_count + 1 } rest := by
        simp [Listener.pushAll, hstep]
      rw [hrw]
      obtain ⟨hq, hp, ho, hcap⟩ := ih { l with overrun_count := l.overrun_count + 1 } hc hle
      refine ⟨?_, ?_, ?_, hcap⟩
      · simpa [hfull] using hq
      · simpa [hfull] using hp
      · rw [ho]; simp; omega
    · have hlt : l.queue.length < l.capacity := lt_of_le_of_ne hle hfull
      have hf : l.queueFull = false := by
        simp [Listener.queueFull]
        omega
      have hstep : l.push it = { l with queue := l.queue ++ [it], push_count := l.push_count + 1 } :=
        Listener.push_not_full l it hf
      have hrw : l.pushAll (it :: rest) =
          Listener.pushAll { l with queue := l.queue ++ [it], push_count := l.push_count + 1 } rest := by
        simp [Listener.pushAll, hstep]
      rw [hrw]
      obtain ⟨hq, hp, ho, hcap⟩ := ih { l with queue := l.queue ++ [it], push_count := l.push_count + 1 }
        hc (by simp; omega)
      refine ⟨?_, ?_, ?_, hcap⟩
      · rw [hq]
        simp only [List.length_append, List.length_cons, List.length_nil]
        have htake : l.capacity - l.queue.length = (l.capacity - (l.queue.length + 1)) + 1 := by omega
        rw [htake, List.take_succ_cons, List.append_assoc]
        rfl
      · rw [hp]; simp; omega
      · rw [ho]; simp; omega

/-- Each push bumps exactly one counter by one. -/
theorem Listener.push_counter_sum (l : Listener) (it : Item) :
    (l.push it).push_count + (l.push it).overrun_count = l.push_count + l.overrun_count + 1 := by
  unfold Listener.push; split <;> simp <;> omega

/-- The counter total over a sequence of pushes equals the number of pushes. -/
theorem Listener.pushAll_counter_sum (its : List Item) :
    ∀ l : Listener, (l.pushAll its).push_count + (l.pushAll its).overrun_count =
      l.push_count + l.overrun_count + its.length := by
  induction its with
  | nil => intro l; simp [Listener.pushAll]
  | cons it rest ih =>
    intro l
    have hrw : l.pushAll (it :: rest) = Listener.pushAll (l.push it) rest := by
      simp [Listener.pushAll]
    rw [hrw, ih (l.push it)]
    have := Listener.push_counter_sum l it
    simp only [List.length_cons]
    omega

/-! The claim theorems. -/

/-- C2: for a listener whose queue has capacity C with 1 <= C, after a
sequence of M > C pushes with no intervening drain, each push onto a
non-full queue enqueues the item and bumps push_count by one, each push
onto a full queue drops the new item (the queue keeps the first C pushed
items unchanged — newest-dropped, not oldest-evicted) and bumps
overrun_count by one; afterwards push_count = C and overrun_count = M - C. -/
theorem C2_overrun_accounting (id C M : Nat) (its : List Item)
    (hC : 1 ≤ C) (hlen : its.length = M) (hMC : C < M) :
    (∀ (l : Listener) (it : Item), l.queueFull = false →
        l.push it = { l with queue := l.queue ++ [it], push_count := l.push_count + 1 }) ∧
    (∀ (l : Listener) (it : Item), l.queueFull = true →
        l.push it = { l with overrun_count := l.overrun_count + 1 }) ∧
    ((Listener.fresh id C).pushAll its).queue = its.take C ∧
    ((Listener.fresh id C).pushAll its).push_count = C ∧
    ((Listener.fresh id C).pushAll its).overrun_count = M - C := by
  obtain ⟨hq, hp, ho, _⟩ := Listener.pushAll_bounded its (Listener.fresh id C)
    (by simpa [Listener.fresh] using hC) (by simp [Listener.fresh])
  refine ⟨fun l it h => Listener.push_not_full l it h,
          fun l it h => Listener.push_full l it h, ?_, ?_, ?_⟩
  · simpa [Listener.fresh] using hq
  · rw [hp]; simp [Listener.fresh]; omega
  · rw [ho]; simp [Listener.fresh]; omega

/-- Witness for C2 at capacity 1 and two pushes. -/
theorem C2_overrun_accounting_witness :
    ((Listener.fresh 0 1).pushAll [(10, 0), (11, 1)]).queue = [(10, 0)] ∧
    ((Listener.fresh 0 1).pushAll [(10, 0), (11, 1)]).push_count = 1 ∧
    ((Listener.fresh 0 1).pushAll [(10, 0), (11, 1)]).overrun_count = 1 :=
  ⟨(C2_overrun_accounting 0 1 2 [(10, 0), (11, 1)] (by decide) (by decide) (by decide)).2.2.1,
   (C2_overrun_accounting 0 1 2 [(10, 0), (11, 1)] (by decide) (by decide) (by decide)).2.2.2.1,
   (C2_overrun_accounting 0 1 2 [(10, 0), (11, 1)] (by decide) (by decide) (by decide)).2.2.2.2⟩

/-- C10: each push increments exactly one of push_count and overrun_count
by exactly one — the former precisely when the item was enqueued, the
latter precisely when the queue was left unchanged — so over any sequence
of pushes, push_count + overrun_count equals the number of push calls. -/
theorem C10_push_conservation (l : Listener) (it : Item) (its : List Item) :
    ((l.push it).push_count + (l.push it).overrun_count
        = l.push_count + l.overrun_count + 1) ∧
    ((l.push it).push_count = l.push_count + 1 ↔ (l.push it).queue = l.queue ++ [it]) ∧
    ((l.push it).overrun_count = l.overrun_count + 1 ↔ (l.push it).queue = l.queue) ∧
    ((l.pushAll its).push_count + (l.pushAll its).overrun_count
        = l.push_count + l.overrun_count + its.length) := by
  refine ⟨Listener.push_counter_sum l it, ?_, ?_, Listener.pushAll_counter_sum its l⟩
  · unfold Listener.push
    split <;> simp
  · unfold Listener.push
    split <;> simp

/-- Witness for C10 on a concrete listener. -/
theorem C10_push_conservation_witness :
    ((Listener.fresh 0 2).push (5, 5)).push_count
        + ((Listener.fresh 0 2).push (5, 5)).overrun_count = 1 :=
  (C10_push_conservation (Listener.fresh 0 2) (5, 5) []).1

/-- C9: over every sequence of operations the code performs on a listener
(pushes by the receive loop, drains by the owning subscriber, terminal
failure stores by the loop exit path), push_count and overrun_count never
decrease, and a terminal failure, once present, is never cleared back to
absence. -/
theorem C9_listener_monotone (l : Listener) (ops : List ListenerOp) :
    l.push_count ≤ (l.applyOps ops).push_count ∧
    l.overrun_count ≤ (l.applyOps ops).overrun_count ∧
    (l.exception.isSome = true → (l.applyOps ops).exception.isSome = true) := by
  induction ops generalizing l with
  | nil => simp [Listener.applyOps]
  | cons op rest ih =>
    have hrw : l.applyOps (op :: rest) = Listener.applyOps (l.applyOp op) rest := by
      simp [Listener.applyOps]
    obtain ⟨hp, ho, he⟩ := ih (l.applyOp op)
    have hstep : l.push_count ≤ (l.applyOp op).push_count ∧
        l.overrun_count ≤ (l.applyOp op).overrun_count ∧
        (l.exception.isSome = true → (l.applyOp op).exception.isSome = true) := by
      cases op with
      | push it =>
          simp only [Listener.applyOp, Listener.push]
          split <;> simp
      | drain => simp [Listener.applyOp]
      | setFailure e => simp [Listener.applyOp]
    rw [hrw]
    exact ⟨le_trans hstep.1 hp, le_trans hstep.2.1 ho, fun h => he (hstep.2.2 h)⟩

/-- Witness for C9 on a concrete listener with a failure already set. -/
theorem C9_listener_monotone_witness :
    ({ Listener.fresh 0 1 with exception := some .valueError }.applyOps
        [.push (1, 1), .drain, .setFailure .resourceClosed]).exception.isSome = true :=
  (C9_listener_monotone { Listener.fresh 0 1 with exception := some .valueError }
    [.push (1, 1), .drain, .setFailure .resourceClosed]).2.2 (by decide)

/-- A loop iteration never touches the finalizer record or the transport
session reference. -/
theorem ImplState.loopIteration_preserves (st : ImplState) (input : Option (Nat × Option Nat)) :
    (st.loopIteration input).finalizerArgs = st.finalizerArgs ∧
    (st.loopIteration input).transportSession = st.transportSession := by
  rcases input with _ | ⟨tid, _ | msg⟩ <;> simp [ImplState.loopIteration]

/-- Neither does any number of loop iterations. -/
theorem ImplState.loopFold_preserves (inputs : List (Option (Nat × Option Nat))) :
    ∀ st : ImplState,
    (inputs.foldl ImplState.loopIteration st).finalizerArgs = st.finalizerArgs ∧
    (inputs.foldl ImplState.loopIteration st).transportSession = st.transportSession := by
  induction inputs with
  | nil => intro st; simp
  | cons i rest ih =>
    intro st
    simp only [List.foldl_cons]
    obtain ⟨h1, h2⟩ := ih (st.loopIteration i)
    obtain ⟨g1, g2⟩ := ImplState.loopIteration_preserves st i
    exact ⟨h1.trans g1, h2.trans g2⟩

/-- C1 as stated is refuted: after a loop ended by the transport fault
number 1, with the finalizer itself raising ValueError during teardown,
the registered listener ends up carrying ValueError, not the triggering
fault, although the loop did end with a fault. -/
theorem C1_counterexample :
    ((c1State.taskRun [] (.fault (.transportFault 1)) (some .valueError)).listeners.map
        Listener.exception) = [some .valueError] ∧
    (some Exc.valueError ≠ some (Exc.transportFault 1)) := by decide

/-- C1 (amended): on every exit of the background loop, whatever the
trigger, the closed flag is set and the finalizer is invoked exactly once
with the transport session — no other operation (explicit close,
add_listener, remove_listener, loop iterations) ever invokes it — and
every listener registered at exit time has its terminal failure set to
the triggering fault, or to the fault raised by the finalizer itself if
finalization fails, or to the generic closed error if the loop ended
without a fault. -/
theorem C1_loop_exit (st : ImplState) (inputs : List (Option (Nat × Option Nat)))
    (trigger : LoopExitTrigger) (finalizerFault : Option Exc) (rx : Listener) (rxId : Nat) :
    (st.taskRun inputs trigger finalizerFault).closed = true ∧
    (st.taskRun inputs trigger finalizerFault).finalizerArgs
        = st.finalizerArgs ++ [[st.transportSession]] ∧
    st.close.finalizerArgs = st.finalizerArgs ∧
    (st.remove_listener rxId).finalizerArgs = st.finalizerArgs ∧
    (∀ st2, st.add_listener rx = .ok st2 → st2.finalizerArgs = st.finalizerArgs) ∧
    (inputs.foldl ImplState.loopIteration st).finalizerArgs = st.finalizerArgs ∧
    (∀ l ∈ (st.taskRun inputs trigger finalizerFault).listeners,
        l.exception = some (exitException trigger finalizerFault)) ∧
    (finalizerFault = none →
        exitException trigger finalizerFault
          = trigger.faultValue.getD .presentationSessionClosed) := by
  obtain ⟨hf, hs⟩ := ImplState.loopFold_preserves inputs st
  refine ⟨?_, ?_, ?_, ?_, ?_, hf, ?_, ?_⟩
  · simp [ImplState.taskRun, ImplState.taskExit]
  · simp [ImplState.taskRun, ImplState.taskExit, hf, hs]
  · simp [ImplState.close]
  · unfold ImplState.remove_listener
    split <;> simp
  · intro st2 h
    unfold ImplState.add_listener at h
    split at h
    · exact absurd h (by simp)
    · cases h; simp
  · intro l hl
    simp only [ImplState.taskRun, ImplState.taskExit, List.mem_map] at hl
    obtain ⟨l0, _, rfl⟩ := hl
    rfl
  · intro h; simp [exitException, h]

/-- Witness for C1 at a concrete receiver and trigger. -/
theorem C1_loop_exit_witness :
    exitException (.fault (.transportFault 3)) none = .transportFault 3 :=
  (C1_loop_exit (ImplState.start 9) [] (.fault (.transportFault 3)) none
    (Listener.fresh 0 0) 0).2.2.2.2.2.2.2 rfl

/-- If no registered listener has the requested identity, `list.remove`
raises `ValueError`. -/
theorem listRemove_absent (rxId : Nat) : ∀ ls : List Listener,
    (∀ l ∈ ls, l.id ≠ rxId) → listRemove ls rxId = .error .valueError := by
  intro ls
  induction ls with
  | nil => intro _; rfl
  | cons l rest ih =>
    intro h
    have hl : ¬(l.id = rxId) := h l (by simp)
    have hrest := ih (fun x hx => h x (by simp [hx]))
    simp [listRemove, hl, hrest]

/-- The listener list produced by `remove_listener` is always the
post-removal list, whichever branch of the shutdown check is taken. -/
theorem ImplState.remove_listener_listeners (st : ImplState) (rxId : Nat) :
    (st.remove_listener rxId).listeners = st.removedList rxId := by
  unfold ImplState.remove_listener
  split <;> rfl

/-- C5: add_listener raises the closed error exactly on a closed
receiver and otherwise appends the listener; remove_listener is a total
function (the method never raises) which, when the identity was never
registered, leaves the listener list unchanged and, when it succeeds,
yields exactly the post-removal list; and whenever the resulting listener
list is empty while the receiver was not yet closed, the closed flag is
set and the background task is cancelled immediately. -/
theorem C5_registry (st : ImplState) (rx : Listener) (rxId : Nat) :
    (st.closed = true → st.add_listener rx = .error .presentationSessionClosed) ∧
    (st.closed = false → st.add_listener rx = .ok { st with listeners := st.listeners ++ [rx] }) ∧
    ((∀ l ∈ st.listeners, l.id ≠ rxId) → (st.remove_listener rxId).listeners = st.listeners) ∧
    (∀ ls', listRemove st.listeners rxId = .ok ls' → (st.remove_listener rxId).listeners = ls') ∧
    ((st.remove_listener rxId).listeners = [] → st.closed = false →
        (st.remove_listener rxId).closed = true ∧
        (st.remove_listener rxId).taskCancelRequested = true) := by
  refine ⟨?_, ?_, ?_, ?_, ?_⟩
  · intro h; simp [ImplState.add_listener, h]
  · intro h; simp [ImplState.add_listener, h]
  · intro h
    rw [ImplState.remove_listener_listeners]
    simp [ImplState.removedList, listRemove_absent rxId st.listeners h]
  · intro ls' h
    rw [ImplState.remove_listener_listeners]
    simp [ImplState.removedList, h]
  · intro hemp hopen
    rw [ImplState.remove_listener_listeners] at hemp
    have hcond : (st.removedList rxId).length = 0 ∧ st.closed = false := by
      simp [hemp, hopen]
    unfold ImplState.remove_listener
    rw [if_pos hcond]
    exact ⟨rfl, rfl⟩

/-- Witness for C5 at a concrete receiver whose only listener departs. -/
theorem C5_registry_witness :
    (({ ImplState.start 4 with listeners := [Listener.fresh 3 0] }).remove_listener 3).closed
      = true :=
  ((C5_registry { ImplState.start 4 with listeners := [Listener.fresh 3 0] }
      (Listener.fresh 3 0) 3).2.2.2.2 (by decide) (by decide)).1

/-- C6 as stated is refuted: an explicit queue capacity of 0 raises
ValueError in `Subscriber.__init__` instead of yielding the unbounded
queue (which a maxsize of 0 would denote). -/
theorem C6_counterexample :
    validateQueueCapacity (some 0) = .error .valueError ∧
    validateQueueCapacity (some 0) ≠ .ok 0 := by
  have h : validateQueueCapacity (some 0) = .error .valueError := by
    norm_num [validateQueueCapacity]
  exact ⟨h, by rw [h]; exact fun hc => Except.noConfusion hc⟩

/-- C6 (amended): an explicit capacity N with N >= 1 yields a listener
whose queue bound is exactly N; an explicit capacity N < 1 — including
N = 0 — raises ValueError; an unspecified (None) capacity yields the
unbounded queue (bound 0, the value the Queue API defines as unlimited). -/
theorem C6_queue_capacity (impl : ImplState) (rxId : Nat) (n : Int)
    (h : impl.closed = false) :
    (1 ≤ n → subscriberInit impl rxId (some n) =
        .ok { sub := { closed := false, rxId := rxId, hasTask := false },
              impl := { impl with listeners := impl.listeners ++ [Listener.fresh rxId n.toNat] } } ∧
        ((Listener.fresh rxId n.toNat).capacity : Int) = n) ∧
    (n < 1 → subscriberInit impl rxId (some n) = .error .valueError) ∧
    subscriberInit impl rxId none =
        .ok { sub := { closed := false, rxId := rxId, hasTask := false },
              impl := { impl with listeners := impl.listeners ++ [Listener.fresh rxId 0] } } := by
  refine ⟨?_, ?_, ?_⟩
  · intro hn
    have hlt : ¬(n < 1) := by omega
    constructor
    · simp [subscriberInit, validateQueueCapacity, hlt, ImplState.add_listener, h]
    · simp [Listener.fresh]
      omega
  · intro hn
    simp [subscriberInit, validateQueueCapacity, hn]
  · simp [subscriberInit, validateQueueCapacity, ImplState.add_listener, h]

/-- Witness for C6 at capacity 2 on a fresh receiver. -/
theorem C6_queue_capacity_witness :
    subscriberInit (ImplState.start 0) 1 (some 2) =
      .ok { sub := { closed := false, rxId := 1, hasTask := false },
            impl := { ImplState.start 0 with listeners := [Listener.fresh 1 2] } } := by
  have := ((C6_queue_capacity (ImplState.start 0) 1 2 (by decide)).1 (by decide)).1
  simpa [ImplState.start] using this

/-! Helper lemmas about `receive_for`. -/

theorem raiseIfClosedOrFailed_closed (s : System) (h : s.sub.closed = true) :
    raiseIfClosedOrFailed s = (s, some (.presentationSessionClosed, none)) := by
  simp [raiseIfClosedOrFailed, h]

theorem raiseIfClosedOrFailed_ok (s : System) (rx : Listener)
    (hopen : s.sub.closed = false) (hrx : s.impl.getListener s.sub.rxId = some rx)
    (hexc : rx.exception = none) :
    raiseIfClosedOrFailed s = (s, none) := by
  simp [raiseIfClosedOrFailed, hopen, hrx, hexc]

theorem raiseIfClosedOrFailed_failed (s : System) (rx : Listener) (e : Exc)
    (hopen : s.sub.closed = false) (hrx : s.impl.getListener s.sub.rxId = some rx)
    (hexc : rx.exception = some e) :
    raiseIfClosedOrFailed s =
      ({ s with sub := { s.sub with closed := true } },
       some (e, some .runtimeFailedClosed)) := by
  simp [raiseIfClosedOrFailed, hopen, hrx, hexc]

/-- The only code path of `receive_for` that suspends the caller is the
await on an empty queue under a positive timeout. -/
theorem receive_for_blocked_pos (s : System) (t : Int) (a : Option Item)
    (h : (receive_for s t a).2.blocked = true) : 0 < t := by
  unfold receive_for at h
  split at h
  · simp at h
  · split at h
    · simp at h
    · split at h
      · simp at h
      · split at h
        · assumption
        · simp at h

/-- C3: on an open, non-failed subscriber, a call with timeout t, t <= 0
(including negative t), never suspends: it does one non-blocking check of
the listener queue, returning the head pair if the queue is non-empty and
None (leaving the state untouched) if it is empty; and a `receive_for`
call can suspend only under a positive timeout. -/
theorem C3_nonpositive_timeout (s : System) (rx : Listener) (timeout : Int)
    (arrival : Option Item)
    (hopen : s.sub.closed = false)
    (hrx : s.impl.getListener s.sub.rxId = some rx)
    (hexc : rx.exception = none)
    (ht : timeout ≤ 0) :
    (receive_for s timeout arrival).2.blocked = false ∧
    (receive_for s timeout arrival).2.outcome = .returned rx.queue.head? ∧
    (rx.queue = [] →
        receive_for s timeout arrival = (s, { outcome := .returned none, blocked := false })) ∧
    (∀ (s' : System) (t' : Int) (a' : Option Item),
        (receive_for s' t' a').2.blocked = true → 0 < t') := by
  have hneg : ¬(0 < timeout) := by omega
  have hr : raiseIfClosedOrFailed s = (s, none) := raiseIfClosedOrFailed_ok s rx hopen hrx hexc
  have hmain : receive_for s timeout arrival =
      match rx.queue with
      | it :: rest =>
          ({ s with impl := s.impl.setListener { rx with queue := rest } },
           { outcome := .returned (some it), blocked := false })
      | [] => (s, { outcome := .returned none, blocked := false }) := by
    cases hq : rx.queue with
    | nil => simp [receive_for, hr, hrx, hq, hneg]
    | cons it rest => simp [receive_for, hr, hrx, hq]
  refine ⟨?_, ?_, ?_, fun s' t' a' hb => receive_for_blocked_pos s' t' a' hb⟩
  · rw [hmain]; cases rx.queue <;> simp
  · rw [hmain]; cases rx.queue <;> simp
  · intro hq; rw [hmain, hq]

/-- Witness for C3: a negative-timeout call on an empty queue returns
None at once without suspending. -/
theorem C3_nonpositive_timeout_witness :
    receive_for c3System (-1) none = (c3System, { outcome := .returned none, blocked := false }) :=
  (C3_nonpositive_timeout c3System (Listener.fresh 0 0) (-1) none rfl rfl rfl
    (by decide)).2.2.1 rfl

/-- C4 as stated is refuted: after the first receive call has observed
the terminal transport fault and closed the handle, the second call
raises a bare `PresentationSessionClosedError` whose explicit cause is
None — it is not chained to the original fault as the claim demands. -/
theorem C4_counterexample :
    (receive_for (receive_for c4System 0 none).1 0 none).2.outcome
        = .raised .presentationSessionClosed none ∧
    (receive_for (receive_for c4System 0 none).1 0 none).2.outcome
        ≠ .raised .presentationSessionClosed (some (.transportFault 7)) := by decide

/-- C4 (amended): on an open subscriber whose listener carries a terminal
failure e, the first receive call (for any timeout) marks the handle
closed and raises e with the RuntimeError wrapper as its explicit cause,
indicating it originated from the underlying receiver fault; every
receive call on a closed handle raises `PresentationSessionClosedError`
with no explicit cause (not chained to the original fault). -/
theorem C4_terminal_failure (s : System) (rx : Listener) (e : Exc) (t : Int)
    (a : Option Item)
    (hopen : s.sub.closed = false)
    (hrx : s.impl.getListener s.sub.rxId = some rx)
    (hexc : rx.exception = some e) :
    receive_for s t a =
      ({ s with sub := { s.sub with closed := true } },
       { outcome := .raised e (some .runtimeFailedClosed), blocked := false }) ∧
    (∀ (s' : System) (t' : Int) (a' : Option Item), s'.sub.closed = true →
        receive_for s' t' a'
          = (s', { outcome := .raised .presentationSessionClosed none, blocked := false })) := by
  have hr := raiseIfClosedOrFailed_failed s rx e hopen hrx hexc
  constructor
  · simp [receive_for, hr]
  · intro s' t' a' hclosed
    simp [receive_for, raiseIfClosedOrFailed_closed s' hclosed]

/-- Witness for C4: the first receive on the faulted concrete system
raises the transport fault wrapped as originating from the receiver. -/
theorem C4_terminal_failure_witness :
    receive_for c4System 0 none =
      ({ c4System with sub := { c4System.sub with closed := true } },
       { outcome := .raised (.transportFault 7) (some .runtimeFailedClosed),
         blocked := false }) :=
  (C4_terminal_failure c4System
    { Listener.fresh 0 0 with exception := some (.transportFault 7) }
    (.transportFault 7) 0 none rfl rfl rfl).1

/-- C7: one step of the async-iteration protocol ends the sequence with a
clean StopAsyncIteration precisely when the underlying receive failed
with a closed error (a `ResourceClosedError`, of which the
`PresentationSessionClosedError` raised by a closed subscriber is one);
every other failure propagates out unchanged, and a received pair is
yielded. -/
theorem C7_iteration_stop (o : ReceiveOutcome) :
    (anextStep o = .stopAsyncIteration ↔
        ∃ e c, o = .raised e c ∧ e.isResourceClosedError = true) ∧
    (∀ e c, o = .raised e c → e.isResourceClosedError = false → anextStep o = .raised e c) ∧
    (∀ it, o = .item it → anextStep o = .yielded it) ∧
    Exc.presentationSessionClosed.isResourceClosedError = true := by
  refine ⟨?_, ?_, ?_, rfl⟩
  · cases o with
    | item it => simp [anextStep]
    | raised e c =>
        cases h : e.isResourceClosedError with
        | true => simp [anextStep, h]
        | false => simp [anextStep, h]
  · intro e c hraise hfalse
    subst hraise
    simp [anextStep, hfalse]
  · intro it hitem
    subst hitem
    rfl

/-- Witness for C7: a transport fault propagates out of the iteration
unchanged. -/
theorem C7_iteration_stop_witness :
    anextStep (.raised (.transportFault 3) none) = .raised (.transportFault 3) none :=
  (C7_iteration_stop (.raised (.transportFault 3) none)).2.1 (.transportFault 3) none rfl rfl

/-- C8: `Subscriber.close` is idempotent and total (the method never
raises: its only fallible steps are wrapped in try/except): the first
call on an open handle marks it closed, detaches its listener from the
shared receiver via `remove_listener`, and drops the background handler
task without waiting for it; a call on an already-closed handle changes
nothing. -/
theorem C8_close_idempotent (s : System) :
    subscriberClose (subscriberClose s) = subscriberClose s ∧
    (subscriberClose s).sub.closed = true ∧
    (s.sub.closed = false →
        (subscriberClose s).impl = s.impl.remove_listener s.sub.rxId ∧
        (subscriberClose s).sub.hasTask = false) ∧
    (s.sub.closed = true → subscriberClose s = s) := by
  by_cases h : s.sub.closed = true
  · refine ⟨?_, ?_, ?_, ?_⟩ <;> simp [subscriberClose, h]
  · have h' : s.sub.closed = false := by simpa using h
    refine ⟨?_, ?_, ?_, ?_⟩ <;> simp [subscriberClose, h']

/-- Witness for C8 on the concrete open system with a live task. -/
theorem C8_close_idempotent_witness :
    (subscriberClose c8System).impl = c8System.impl.remove_listener 0 ∧
    (subscriberClose c8System).sub.hasTask = false :=
  (C8_close_idempotent c8System).2.2.1 rfl

end PyUAVCAN
